import Mathlib

/-!
Verification development for the Deep Research search/fetch tools
(`sec_edgar_mcp/tools/deep_research.py`).

The Python module is shallowly embedded below: pure helpers become Lean
functions, the mutable object cache (`self._object_cache`) is threaded as an
explicit association list, and all calls to the external EDGAR data provider
(`EdgarClient`, `edgar.get_filings`, `filing.text()`, `datetime`) are supplied
through an explicit environment structure `Env`.  Exceptions raised by the
provider are modelled with `Except`/`Option` results; the `try/except` blocks
of the source become `match` discriminations on those results.

Machine integers do not occur in the Python source (Python integers are
unbounded); the MD5 hash used for object identifiers works on 32-bit words,
modelled as `Nat` with explicit `% 2^32` reductions.
-/

set_option maxHeartbeats 1000000

namespace SecEdgar

/-! ## String helpers

Python string operations used by the source (`str.replace`, `str.lower`,
`str.split()`, substring membership `in`, slicing) are modelled over the
character list underlying a Lean `String`.  `pyReplaceAux` carries a fuel
argument (initialised to the length of the subject string) so that the
definition is structurally recursive and kernel-reducible; the fuel never
runs out because each step consumes at least one character.
-/

/-- One step of Python `str.replace`: scan left to right, replacing each
non-overlapping occurrence of `old` by `new`.  (Python's special behaviour
for an empty `old` is irrelevant here: the source only replaces `"Z"` and
`"-"`.) -/
def pyReplaceAux (old new : List Char) : Nat → List Char → List Char
  | _, [] => []
  | 0, s => s
  | fuel + 1, c :: rest =>
    if !old.isEmpty && old.isPrefixOf (c :: rest) then
      new ++ pyReplaceAux old new fuel (List.drop (old.length - 1) rest)
    else
      c :: pyReplaceAux old new fuel rest

/-- Python `s.replace(old, new)`. -/
def pyReplace (s old new : String) : String :=
  ⟨pyReplaceAux old.data new.data s.data.length s.data⟩

/-- Python `s.lower()` (the source only ever lowercases ASCII form types,
queries and company names). -/
def pyLower (s : String) : String :=
  ⟨s.data.map Char.toLower⟩

/-- Helper for Python `s.split()`: accumulates the current word (reversed)
and splits on runs of whitespace, producing no empty words. -/
def pySplitWsAux : List Char → List Char → List String
  | [], acc => if acc.isEmpty then [] else [⟨acc.reverse⟩]
  | c :: rest, acc =>
    if c.isWhitespace then
      if acc.isEmpty then pySplitWsAux rest [] else ⟨acc.reverse⟩ :: pySplitWsAux rest []
    else
      pySplitWsAux rest (c :: acc)

/-- Python `s.split()` with no argument: split on whitespace runs,
discarding empty strings. -/
def pySplitWs (s : String) : List String :=
  pySplitWsAux s.data []

/-- Python `needle in hay` on strings: contiguous substring test. -/
def substrB (needle hay : String) : Bool :=
  decide (needle.data <:+: hay.data)

/-- Python `" ".join(parts)`. -/
def pyJoinSpace : List String → String
  | [] => ""
  | [s] => s
  | s :: rest => s ++ " " ++ pyJoinSpace rest

/-! ## MD5 (`hashlib.md5`)

`_generate_object_id` hashes `f"{data_type}:{identifier}"` with MD5 and keeps
the first 16 hex digits.  The standard MD5 algorithm (RFC 1321) is embedded
over `Nat`, with all 32-bit word arithmetic reduced modulo `2^32`.
-/

/-- Reduce to a 32-bit word. -/
def u32 (x : Nat) : Nat := x % 4294967296

/-- Bitwise complement within 32 bits (argument is always a 32-bit word). -/
def not32 (x : Nat) : Nat := 4294967295 - x

/-- Rotate a 32-bit word left by `c` (with `0 < c < 32`). -/
def rotl32 (c x : Nat) : Nat := u32 (x <<< c) ||| (x >>> (32 - c))

/-- MD5 round function F. -/
def md5F (b c d : Nat) : Nat := (b &&& c) ||| (not32 b &&& d)

/-- MD5 round function G. -/
def md5G (b c d : Nat) : Nat := (d &&& b) ||| (not32 d &&& c)

/-- MD5 round function H. -/
def md5H (b c d : Nat) : Nat := b ^^^ c ^^^ d

/-- MD5 round function I. -/
def md5I (b c d : Nat) : Nat := c ^^^ (b ||| not32 d)

/-- MD5 per-round shift amounts. -/
def md5S : List Nat :=
  [7, 12, 17, 22, 7, 12, 17, 22, 7, 12, 17, 22, 7, 12, 17, 22,
   5, 9, 14, 20, 5, 9, 14, 20, 5, 9, 14, 20, 5, 9, 14, 20,
   4, 11, 16, 23, 4, 11, 16, 23, 4, 11, 16, 23, 4, 11, 16, 23,
   6, 10, 15, 21, 6, 10, 15, 21, 6, 10, 15, 21, 6, 10, 15, 21]

/-- MD5 sine-derived constants. -/
def md5K : List Nat :=
  [0xd76aa478, 0xe8c7b756, 0x242070db, 0xc1bdceee,
   0xf57c0faf, 0x4787c62a, 0xa8304613, 0xfd469501,
   0x698098d8, 0x8b44f7af, 0xffff5bb1, 0x895cd7be,
   0x6b901122, 0xfd987193, 0xa679438e, 0x49b40821,
   0xf61e2562, 0xc040b340, 0x265e5a51, 0xe9b6c7aa,
   0xd62f105d, 0x02441453, 0xd8a1e681, 0xe7d3fbc8,
   0x21e1cde6, 0xc33707d6, 0xf4d50d87, 0x455a14ed,
   0xa9e3e905, 0xfcefa3f8, 0x676f02d9, 0x8d2a4c8a,
   0xfffa3942, 0x8771f681, 0x6d9d6122, 0xfde5380c,
   0xa4beea44, 0x4bdecfa9, 0xf6bb4b60, 0xbebfbc70,
   0x289b7ec6, 0xeaa127fa, 0xd4ef3085, 0x04881d05,
   0xd9d4d039, 0xe6db99e5, 0x1fa27cf8, 0xc4ac5665,
   0xf4292244, 0x432aff97, 0xab9423a7, 0xfc93a039,
   0x655b59c3, 0x8f0ccc92, 0xffeff47d, 0x85845dd1,
   0x6fa87e4f, 0xfe2ce6e0, 0xa3014314, 0x4e0811a1,
   0xf7537e82, 0xbd3af235, 0x2ad7d2bb, 0xeb86d391]

/-- The four 32-bit MD5 state words. -/
structure MD5State where
  a : Nat
  b : Nat
  c : Nat
  d : Nat
deriving DecidableEq

/-- Word `g` of a 64-byte chunk, little-endian. -/
def chunkWord (chunk : List Nat) (g : Nat) : Nat :=
  chunk.getD (4 * g) 0 + 256 * chunk.getD (4 * g + 1) 0 +
    65536 * chunk.getD (4 * g + 2) 0 + 16777216 * chunk.getD (4 * g + 3) 0

/-- One of the 64 MD5 rounds (`M` gives the chunk words). -/
def md5Step (M : Nat → Nat) (st : MD5State) (i : Nat) : MD5State :=
  let fg : Nat × Nat :=
    if i < 16 then (md5F st.b st.c st.d, i)
    else if i < 32 then (md5G st.b st.c st.d, (5 * i + 1) % 16)
    else if i < 48 then (md5H st.b st.c st.d, (3 * i + 5) % 16)
    else (md5I st.b st.c st.d, (7 * i) % 16)
  let f := u32 (fg.1 + st.a + md5K.getD i 0 + M fg.2)
  ⟨st.d, u32 (st.b + rotl32 (md5S.getD i 0) f), st.b, st.c⟩

/-- Process one 64-byte chunk. -/
def md5ProcessChunk (st : MD5State) (chunk : List Nat) : MD5State :=
  let e := (List.range 64).foldl (md5Step (chunkWord chunk)) st
  ⟨u32 (st.a + e.a), u32 (st.b + e.b), u32 (st.c + e.c), u32 (st.d + e.d)⟩

/-- Little-endian bytes of a 32-bit word. -/
def leBytes4 (x : Nat) : List Nat :=
  [x % 256, x / 256 % 256, x / 65536 % 256, x / 16777216 % 256]

/-- Little-endian bytes of a 64-bit length field. -/
def leBytes8 (x : Nat) : List Nat :=
  leBytes4 (x % 4294967296) ++ leBytes4 (x / 4294967296)

/-- MD5 padding: a `0x80` byte, zeros up to 56 mod 64, and the bit length. -/
def md5Pad (msg : List Nat) : List Nat :=
  msg ++ [128] ++ List.replicate ((119 - msg.length % 64) % 64) 0 ++
    leBytes8 ((msg.length * 8) % 18446744073709551616)

/-- Split into 64-byte chunks (fuel-based so the definition is structural;
the fuel `l.length` always suffices). -/
def md5ChunksAux : Nat → List Nat → List (List Nat)
  | _, [] => []
  | 0, _ => []
  | fuel + 1, l => l.take 64 :: md5ChunksAux fuel (l.drop 64)

/-- Split a padded message into its 64-byte chunks. -/
def md5Chunks (l : List Nat) : List (List Nat) :=
  md5ChunksAux l.length l

/-- The 16-byte MD5 digest of a byte string. -/
def md5Digest (msg : List Nat) : List Nat :=
  let st := (md5Chunks (md5Pad msg)).foldl md5ProcessChunk
    ⟨0x67452301, 0xefcdab89, 0x98badcfe, 0x10325476⟩
  leBytes4 st.a ++ leBytes4 st.b ++ leBytes4 st.c ++ leBytes4 st.d

/-- Lowercase hex digit for a value below 16. -/
def hexChar (n : Nat) : Char :=
  if n < 10 then Char.ofNat (48 + n) else Char.ofNat (87 + n)

/-- Two hex characters of one byte. -/
def byteHexChars (b : Nat) : List Char :=
  [hexChar (b / 16), hexChar (b % 16)]

/-- Characters of `hashlib.md5(msg).hexdigest()`. -/
def md5HexChars (msg : List Nat) : List Char :=
  ((md5Digest msg).map byteHexChars).flatten

/-- UTF-8 bytes of a string (Python `str.encode()`). -/
def strBytes (s : String) : List Nat :=
  s.toUTF8.toList.map (fun b => b.toNat)

/-- Embedding of `DeepResearchTools._generate_object_id`:
`hashlib.md5(f"{data_type}:{identifier}".encode()).hexdigest()[:16]`. -/
def generateObjectId (data_type identifier : String) : String :=
  ⟨(md5HexChars (strBytes (data_type ++ ":" ++ identifier))).take 16⟩

/-! ## Data model

Shapes of the external provider's objects (`Company`, `Filing`) as the source
accesses them.  Optional attributes probed with `getattr(..., None)` become
`Option` fields.  A filing date may arrive as a date object or as a string
(the source branches on `isinstance(filing_date, str)`); dates and datetimes
are modelled as integers of an abstract totally ordered timeline, with
`timedelta(days=n)` as `n * 86400`.

The note on tickers: the source reads
`getattr(company, 'tickers', [None])[0] if hasattr(company, 'tickers') else None`;
with the provider contract (`tickers` always a list) this is the head of the
list, modelled as `List.head?`.
-/

/-- A company object of the external provider. -/
structure Company where
  cik : String
  name : String
  tickers : List String
  sic : Option String := none
  sic_description : Option String := none
  exchange : Option String := none
  state : Option String := none
  fiscal_year_end : Option String := none
  business_address : Option String := none
  mailing_address : Option String := none
  former_names : List String := []
deriving DecidableEq

/-- A filing date as delivered by the provider: either a date object
(abstract timeline value) or an ISO-8601 string. -/
inductive PyDate where
  | date (t : Int)
  | str (s : String)
deriving DecidableEq

/-- A filing object of the external provider. -/
structure Filing where
  accession_number : String
  cik : String
  company : String
  form : String
  filing_date : PyDate
  period_of_report : Option String := none
  file_number : Option String := none
  acceptance_datetime : Option String := none
  documents : List String := []
  primary_document : Option String := none
deriving DecidableEq

/-- One entry of a `search` response (the per-candidate result dict); the
company and filing variants share this shape, with the fields the other
variant lacks left `none`. -/
structure SearchResult where
  object_id : String
  type : String
  title : String
  relevance_score : ℚ
  cik : String
  description : String
  ticker : Option String := none
  form_type : Option String := none
  company : Option String := none
  accession_number : Option String := none
  filing_date : Option String := none
deriving DecidableEq

/-- One value of `self._object_cache`: `type`, provider keys, and the cached
search-time summary under `data`.  Keys a given entry kind does not store are
`none` (company entries store no accession number). -/
structure CacheEntry where
  type : String
  cik : String
  accession_number : Option String := none
  data : Option SearchResult := none
deriving DecidableEq

/-- The object cache `self._object_cache`, a string-keyed dict. -/
abbrev Cache := List (String × CacheEntry)

/-- Python `cache[k]` lookup (as `Option`). -/
def cacheGet (cache : Cache) (k : String) : Option CacheEntry :=
  (cache.find? (fun p => p.1 == k)).map (fun p => p.2)

/-- Python `cache[k] = v`: store or overwrite. -/
def cacheSet (cache : Cache) (k : String) (v : CacheEntry) : Cache :=
  (k, v) :: cache.filter (fun p => !(p.1 == k))

/-- The external collaborators of the module, as one explicit environment:
the EDGAR client methods, the module-level `edgar.get_filings`, filing text
retrieval, and the clock/ISO-8601 conversions of `datetime`.  `Except.error`
and `none` results model raised exceptions. -/
structure Env where
  search_companies : String → Nat → Except String (List Company)
  get_company : String → Except String Company
  get_filings : Company → Except String (List Filing)
  edgar_get_filings : Nat → Except String (List Filing)
  text : Filing → Option String
  now : Int
  fromisoformat : String → Int
  isoformat : Int → String

/-! ## Search -/

/-- Embedding of `_score_relevance`: the fraction of whitespace-separated,
lower-cased query terms occurring as substrings of the lower-cased text. -/
def scoreRelevance (query text : String) : ℚ :=
  let query_terms := pySplitWs (pyLower query)
  let text_lower := pyLower text
  let nMatches := (query_terms.filter (fun t => substrB t text_lower)).length
  (nMatches : ℚ) / (max query_terms.length 1 : ℚ)

/-- Display form of a filing date in a result dict:
`filing_date.isoformat()` for date objects, `str(filing_date)` otherwise. -/
def dateDisplay (env : Env) : PyDate → String
  | .date t => env.isoformat t
  | .str s => s

/-- Timeline value of a filing date used by the recency comparison: string
dates are parsed with `datetime.fromisoformat` after `replace('Z', '+00:00')`. -/
def filingDateVal (env : Env) : PyDate → Int
  | .date t => t
  | .str s => env.fromisoformat (pyReplace s "Z" "+00:00")

/-- Truthiness test and cutoff comparison of the filing date filter:
`date_range_days` truthy (set and nonzero) and
`filing_date < datetime.now() - timedelta(days=date_range_days)`. -/
def recencyDrop (env : Env) (date_range_days : Option Int) (f : Filing) : Bool :=
  match date_range_days with
  | some n => if n ≠ 0 then decide (filingDateVal env f.filing_date < env.now - n * 86400) else false
  | none => false

/-- The result dict built for one company candidate. -/
def companySearchResult (query : String) (c : Company) : SearchResult :=
  let obj_id := generateObjectId "company" c.cik
  let search_text := c.name ++ " " ++ pyJoinSpace c.tickers ++ " CIK:" ++ c.cik
  { object_id := obj_id
    type := "company"
    title := c.name
    cik := c.cik
    ticker := c.tickers.head?
    description := "SEC registered company - CIK: " ++ c.cik
    relevance_score := scoreRelevance query search_text }

/-- The cache entry stored for one company candidate. -/
def companyCacheEntry (query : String) (c : Company) : CacheEntry :=
  { type := "company", cik := c.cik, data := some (companySearchResult query c) }

/-- The result dict built for one filing candidate, including the `+0.5`
relevance boost when the lower-cased form type occurs in the query. -/
def filingSearchResult (env : Env) (query : String) (f : Filing) : SearchResult :=
  let obj_id := generateObjectId "filing" f.accession_number
  let search_text := f.company ++ " " ++ f.form ++ " " ++ f.accession_number
  let relevance := scoreRelevance query search_text
  let relevance := if substrB (pyLower f.form) (pyLower query) then relevance + 1 / 2 else relevance
  { object_id := obj_id
    type := "filing"
    title := f.company ++ " - " ++ f.form
    form_type := some f.form
    company := some f.company
    cik := f.cik
    accession_number := some f.accession_number
    filing_date := some (dateDisplay env f.filing_date)
    description := f.form ++ " filing from " ++ f.company
    relevance_score := relevance }

/-- The cache entry stored for one filing candidate. -/
def filingCacheEntry (env : Env) (query : String) (f : Filing) : CacheEntry :=
  { type := "filing", cik := f.cik, accession_number := some f.accession_number
    data := some (filingSearchResult env query f) }

/-- The company loop of `search`: score, cache and collect every company
candidate, in discovery order. -/
def searchCompaniesLoop (query : String) :
    List Company → List SearchResult → Cache → List SearchResult × Cache
  | [], acc, cache => (acc, cache)
  | c :: rest, acc, cache =>
    let r := companySearchResult query c
    searchCompaniesLoop query rest (acc ++ [r]) (cacheSet cache r.object_id (companyCacheEntry query c))

/-- The filing loop of `search`: stop at `top_k * 2` collected filings,
drop filings failing the recency filter, and score/cache/collect the rest. -/
def searchFilingsLoop (env : Env) (query : String) (top_k : Nat) (date_range_days : Option Int) :
    List Filing → Nat → List SearchResult → Cache → List SearchResult × Cache
  | [], _, acc, cache => (acc, cache)
  | f :: rest, filing_count, acc, cache =>
    if top_k * 2 ≤ filing_count then (acc, cache)
    else if recencyDrop env date_range_days f then
      searchFilingsLoop env query top_k date_range_days rest filing_count acc cache
    else
      let r := filingSearchResult env query f
      searchFilingsLoop env query top_k date_range_days rest (filing_count + 1)
        (acc ++ [r]) (cacheSet cache r.object_id (filingCacheEntry env query f))

/-- The raw filing pool: the company-scoped listing when the query resolves
to a company (`self.client.get_company(query)` succeeding), the global
recent listing `get_filings(count=top_k * 3)` otherwise. -/
def filingsPool (env : Env) (query : String) (top_k : Nat) : Except String (List Filing) :=
  match env.get_company query with
  | .ok target_company => env.get_filings target_company
  | .error _ => env.edgar_get_filings (top_k * 3)

/-- The `"companies" in data_types` block of `search`: candidates and cache
writes contributed by the company search, with a provider failure absorbed
(the block contributes nothing). -/
def searchCompaniesPart (env : Env) (cache : Cache) (query : String) (data_types : List String)
    (top_k : Nat) : List SearchResult × Cache :=
  if "companies" ∈ data_types then
    match env.search_companies query (top_k * 2) with
    | .ok companies => searchCompaniesLoop query companies [] cache
    | .error _ => ([], cache)
  else ([], cache)

/-- The `"filings" in data_types` block of `search`, likewise absorbing a
provider failure. -/
def searchFilingsPart (env : Env) (cache : Cache) (query : String) (data_types : List String)
    (top_k : Nat) (date_range_days : Option Int) : List SearchResult × Cache :=
  if "filings" ∈ data_types then
    match filingsPool env query top_k with
    | .ok filings => searchFilingsLoop env query top_k date_range_days filings 0 [] cache
    | .error _ => ([], cache)
  else ([], cache)

/-- Both candidate loops of `search` in order (companies, then filings). -/
def searchCandidates (env : Env) (cache : Cache) (query : String) (data_types : List String)
    (top_k : Nat) (date_range_days : Option Int) : List SearchResult × Cache :=
  let step1 := searchCompaniesPart env cache query data_types top_k
  let step2 := searchFilingsPart env step1.2 query data_types top_k date_range_days
  (step1.1 ++ step2.1, step2.2)

/-- Stable descending insertion, used to embed
`all_results.sort(key=lambda x: x.get("relevance_score", 0), reverse=True)`:
an element is placed after every earlier element of score greater than or
equal to its own, so equal scores keep discovery order. -/
def insertDesc (a : SearchResult) : List SearchResult → List SearchResult
  | [] => [a]
  | b :: l =>
    if b.relevance_score ≤ a.relevance_score then a :: b :: l
    else b :: insertDesc a l

/-- Stable sort, descending by `relevance_score`.  Python's `list.sort` is
stable; any stable sort computes the same list, and this insertion sort is
structurally recursive and hence kernel-reducible. -/
def sortDesc : List SearchResult → List SearchResult
  | [] => []
  | a :: l => insertDesc a (sortDesc l)

/-- Lines 174-176 of the source: sort all candidates by descending relevance
and keep the first `top_k`. -/
def rankTopK (l : List SearchResult) (k : Nat) : List SearchResult :=
  (sortDesc l).take k

/-- The `search` response dict (success path; in this embedding no exception
can escape the whole operation, so the `success: False` branch of the source
is unreachable). -/
structure SearchResponse where
  success : Bool
  query : String
  results : List SearchResult
  total_found : Nat
  returned : Nat
  data_types_searched : List String
  message : String
deriving DecidableEq

/-- Embedding of `DeepResearchTools.search`, returning the response together
with the updated object cache. -/
def search (env : Env) (cache : Cache) (query : String) (data_types : Option (List String))
    (top_k : Nat) (date_range_days : Option Int) : SearchResponse × Cache :=
  let dts := data_types.getD ["companies", "filings"]
  let step := searchCandidates env cache query dts top_k date_range_days
  let all_results := step.1
  let top_results := rankTopK all_results top_k
  ({ success := true
     query := query
     results := top_results
     total_found := all_results.length
     returned := top_results.length
     data_types_searched := dts
     message := "Found " ++ toString top_results.length ++ " relevant results for \x27" ++ query ++ "\x27" },
   step.2)

/-! ## Fetch -/

/-- The `object_ids` argument of `fetch`: a single token or a list. -/
inductive ObjectIds where
  | one (s : String)
  | many (l : List String)

/-- The `isinstance(object_ids, str)` normalisation to a list. -/
def normalizeIds : ObjectIds → List String
  | .one s => [s]
  | .many l => l

/-- One entry of the `errors` list of a fetch response. -/
structure ErrorEntry where
  object_id : String
  error : String
deriving DecidableEq

/-- Full-detail record assembled for a company token. -/
structure CompanyRecord where
  object_id : String
  cik : String
  name : String
  tickers : List String
  sic : Option String
  sic_description : Option String
  exchange : Option String
  state : Option String
  fiscal_year_end : Option String
  business_address : Option String
  mailing_address : Option String
  former_names : List String
  description : String
deriving DecidableEq

/-- Full-detail record assembled for a filing token (`content` present only
when `include_content` was set). -/
structure FilingRecord where
  object_id : String
  accession_number : String
  cik : String
  company : String
  form_type : String
  filing_date : String
  period_of_report : Option String
  file_number : Option String
  acceptance_datetime : Option String
  documents : List String
  primary_document : Option String
  sec_url : String
  content : Option String := none
deriving DecidableEq

/-- One element of a fetch response's `results` list.  `cachedData` is the
`cached.get("data", ...)` fallback for a cache entry of unknown type;
`unknownFallback` is that fallback's default dict
`{"object_id": ..., "error": "Unknown object type"}` when no `data` key exists. -/
inductive FetchResult where
  | companyRec (r : CompanyRecord)
  | filingRec (r : FilingRecord)
  | cachedData (d : SearchResult)
  | unknownFallback (object_id : String)
deriving DecidableEq

/-- The company record built by the `obj_type == "company"` branch. -/
def companyRecordOf (obj_id : String) (c : Company) : CompanyRecord :=
  { object_id := obj_id
    cik := c.cik
    name := c.name
    tickers := c.tickers
    sic := c.sic
    sic_description := c.sic_description
    exchange := c.exchange
    state := c.state
    fiscal_year_end := c.fiscal_year_end
    business_address := c.business_address
    mailing_address := c.mailing_address
    former_names := c.former_names
    description := "Full company information for " ++ c.name }

/-- The derived canonical SEC URL of a filing. -/
def secUrl (f : Filing) : String :=
  "https://www.sec.gov/Archives/edgar/data/" ++ f.cik ++ "/" ++
    pyReplace f.accession_number "-" "" ++ "/" ++ f.accession_number ++ "-index.htm"

/-- The filing record built by the `obj_type == "filing"` branch, before the
optional content step. -/
def baseFilingRecord (env : Env) (obj_id : String) (f : Filing) : FilingRecord :=
  { object_id := obj_id
    accession_number := f.accession_number
    cik := f.cik
    company := f.company
    form_type := f.form
    filing_date := dateDisplay env f.filing_date
    period_of_report := f.period_of_report
    file_number := f.file_number
    acceptance_datetime := f.acceptance_datetime
    documents := f.documents
    primary_document := f.primary_document
    sec_url := secUrl f }

/-- The content size ceiling: keep the first 50000 characters and append the
explicit truncation marker when the text is longer; return it unchanged
otherwise. -/
def truncateContent (content : String) : String :=
  if 50000 < content.length then
    String.mk (content.data.take 50000) ++ "\n\n[Content truncated - too large for response]"
  else content

/-- The filing record after the `include_content` step: full text through
`truncateContent`, degrading to a placeholder when text retrieval fails. -/
def filingRecordWithContent (env : Env) (include_content : Bool) (obj_id : String)
    (f : Filing) : FilingRecord :=
  let result := baseFilingRecord env obj_id f
  if include_content then
    match env.text f with
    | some content => { result with content := some (truncateContent content) }
    | none => { result with content := some "Content not available" }
  else result

/-- The accession comparison of the linear scan:
`f.accession_number.replace("-", "") == accession.replace("-", "")`. -/
def accessionMatches (accession : String) (f : Filing) : Bool :=
  pyReplace f.accession_number "-" "" == pyReplace accession "-" ""

/-- The cache-hit body of the token loop: the `obj_type` dispatch of the
source.  Every exception of the Python `try` body (provider errors, the
missing-key error, the raised `FilingNotFoundError`) ends as an error entry,
so this function is total. -/
def fetchCached (env : Env) (include_content : Bool) (obj_id : String) (cached : CacheEntry) :
    Except ErrorEntry FetchResult :=
  if cached.type = "company" then
    match env.get_company cached.cik with
    | .error e => .error ⟨obj_id, e⟩
    | .ok company => .ok (.companyRec (companyRecordOf obj_id company))
  else if cached.type = "filing" then
    match cached.accession_number with
    | none => .error ⟨obj_id, "\x27accession_number\x27"⟩
    | some accession =>
      match env.get_company cached.cik with
      | .error e => .error ⟨obj_id, e⟩
      | .ok company =>
        match env.get_filings company with
        | .error e => .error ⟨obj_id, e⟩
        | .ok filings =>
          match filings.find? (accessionMatches accession) with
          | none => .error ⟨obj_id, "Filing " ++ accession ++ " not found"⟩
          | some filing => .ok (.filingRec (filingRecordWithContent env include_content obj_id filing))
  else
    .ok (match cached.data with
      | some d => .cachedData d
      | none => .unknownFallback obj_id)

/-- Processing of a single token inside `fetch`'s loop: resolve through the
cache, then dispatch; a miss is the fixed re-search error entry. -/
def fetchOne (env : Env) (cache : Cache) (include_content : Bool) (obj_id : String) :
    Except ErrorEntry FetchResult :=
  match cacheGet cache obj_id with
  | none => .error ⟨obj_id, "Object ID not found in cache. Please search again."⟩
  | some cached => fetchCached env include_content obj_id cached

/-- The result half of `fetchOne`'s outcome. -/
def fetchOneOk (env : Env) (cache : Cache) (include_content : Bool) (obj_id : String) :
    Option FetchResult :=
  match fetchOne env cache include_content obj_id with
  | .ok r => some r
  | .error _ => none

/-- The error half of `fetchOne`'s outcome. -/
def fetchOneErr (env : Env) (cache : Cache) (include_content : Bool) (obj_id : String) :
    Option ErrorEntry :=
  match fetchOne env cache include_content obj_id with
  | .ok _ => none
  | .error e => some e

/-- The token loop of `fetch`, accumulating `results` and `errors`. -/
def fetchLoop (env : Env) (cache : Cache) (include_content : Bool) :
    List String → List FetchResult → List ErrorEntry → List FetchResult × List ErrorEntry
  | [], results, errors => (results, errors)
  | obj_id :: rest, results, errors =>
    match fetchOne env cache include_content obj_id with
    | .ok r => fetchLoop env cache include_content rest (results ++ [r]) errors
    | .error e => fetchLoop env cache include_content rest results (errors ++ [e])

/-- The `fetch` response dict. -/
structure FetchResponse where
  success : Bool
  results : List FetchResult
  errors : Option (List ErrorEntry)
  fetched : Nat
  failed : Nat
deriving DecidableEq

/-- Embedding of `DeepResearchTools.fetch`.  The cache is read, never
written.  (The outer `except` of the source catches only failures outside
the loop, e.g. a non-iterable `object_ids`; that cannot occur in this typed
embedding, so the `success: False, error: ...` shape is unreachable.) -/
def fetch (env : Env) (cache : Cache) (object_ids : ObjectIds) (include_content : Bool) :
    FetchResponse :=
  let ids := normalizeIds object_ids
  let step := fetchLoop env cache include_content ids [] []
  { success := !step.1.isEmpty
    results := step.1
    errors := if step.2.isEmpty then none else some step.2
    fetched := step.1.length
    failed := step.2.length }

/-- All cache entries carry one of the two entity types written by `search`. -/
def RegistryWF (cache : Cache) : Prop :=
  ∀ p ∈ cache, p.2.type = "company" ∨ p.2.type = "filing"

/-- Normalisation following the specification's words for the accession
comparison ("stripping non-alphanumeric separators"), kept separate from the
source's dash-only `accessionMatches` so the two can be compared. -/
def stripNonAlnum (s : String) : String :=
  ⟨s.data.filter (fun c => c.isAlphanum)⟩

/-- The registry `register` operation of the specification, as the source
performs it inline: derive the token from `(entity_type, natural_key)`,
store/overwrite the entry, return the token. -/
def register (cache : Cache) (entity_type natural_key : String) (entry : CacheEntry) :
    String × Cache :=
  let token := generateObjectId entity_type natural_key
  (token, cacheSet cache token entry)

/-- A generic environment used to instantiate witnesses. -/
def arbEnv : Env :=
  { search_companies := fun _ _ => .error "offline"
    get_company := fun _ => .error "offline"
    get_filings := fun _ => .error "offline"
    edgar_get_filings := fun _ => .error "offline"
    text := fun _ => none
    now := 0
    fromisoformat := fun _ => 0
    isoformat := fun _ => "" }

/-! ## Lemmas about the identifier derivation -/

theorem leBytes4_lt (x : Nat) : ∀ b ∈ leBytes4 x, b < 256 := by
  intro b hb
  simp only [leBytes4, List.mem_cons, List.not_mem_nil, or_false] at hb
  rcases hb with h | h | h | h <;> subst h <;> omega

theorem md5Digest_lt (msg : List Nat) : ∀ b ∈ md5Digest msg, b < 256 := by
  intro b hb
  simp only [md5Digest, List.mem_append] at hb
  rcases hb with ((h | h) | h) | h <;> exact leBytes4_lt _ b h

theorem md5Digest_length (msg : List Nat) : (md5Digest msg).length = 16 := by
  simp [md5Digest, leBytes4]

theorem flatten_byteHex_length (l : List Nat) :
    ((l.map byteHexChars).flatten).length = 2 * l.length := by
  induction l with
  | nil => simp
  | cons b l ih => simp [byteHexChars, ih]; omega

theorem md5HexChars_length (msg : List Nat) : (md5HexChars msg).length = 32 := by
  show ((List.map byteHexChars (md5Digest msg)).flatten).length = 32
  rw [flatten_byteHex_length, md5Digest_length]

theorem hexChar_mem_alphabet : ∀ n < 16, hexChar n ∈ ("0123456789abcdef").data := by
  decide

theorem md5HexChars_mem (msg : List Nat) :
    ∀ c ∈ md5HexChars msg, c ∈ ("0123456789abcdef").data := by
  intro c hc
  simp only [md5HexChars, List.mem_flatten, List.mem_map] at hc
  obtain ⟨chunk, ⟨b, hb, hchunk⟩, hcchunk⟩ := hc
  subst hchunk
  have hblt : b < 256 := md5Digest_lt msg b hb
  simp only [byteHexChars, List.mem_cons, List.not_mem_nil, or_false] at hcchunk
  rcases hcchunk with h | h <;> subst h <;> apply hexChar_mem_alphabet <;> omega

theorem generateObjectId_length (t k : String) : (generateObjectId t k).length = 16 := by
  show ((md5HexChars (strBytes (t ++ ":" ++ k))).take 16).length = 16
  rw [List.length_take, md5HexChars_length]
  omega

/-- C1. Object-identifier generation is a pure function of the entity type
and natural key: the token is the first 16 hexadecimal characters of the MD5
hex digest of `entity_type ++ ":" ++ natural_key`, it always has exactly 16
characters drawn from the lowercase hex alphabet, and neither the summary
data stored alongside it, the query, the environment, nor the prior cache
contents influence it — so any two registrations of the same pair yield the
identical token. -/
theorem object_id_pure_first16_hex (t k q q' : String) (c : Company) (f : Filing)
    (env env' : Env) (cache cache' : Cache) (e e' : CacheEntry) :
    generateObjectId t k = String.mk ((md5HexChars (strBytes (t ++ ":" ++ k))).take 16)
    ∧ (generateObjectId t k).length = 16
    ∧ (generateObjectId t k).data.all (fun ch => decide (ch ∈ ("0123456789abcdef").data)) = true
    ∧ (register cache t k e).1 = (register cache' t k e').1
    ∧ (companySearchResult q c).object_id = (companySearchResult q' c).object_id
    ∧ (filingSearchResult env q f).object_id = (filingSearchResult env' q' f).object_id
    ∧ (companySearchResult q c).object_id = generateObjectId "company" c.cik
    ∧ (filingSearchResult env q f).object_id = generateObjectId "filing" f.accession_number := by
  refine ⟨rfl, generateObjectId_length t k, ?_, rfl, rfl, rfl, rfl, rfl⟩
  rw [List.all_eq_true]
  intro ch hch
  rw [decide_eq_true_eq]
  have hsub : ch ∈ md5HexChars (strBytes (t ++ ":" ++ k)) :=
    (List.take_sublist 16 _).subset hch
  exact md5HexChars_mem _ ch hsub

/-! ## Lemmas about the fetch loop -/

theorem fetchOne_some {cache : Cache} {obj_id : String} {e : CacheEntry} (env : Env) (inc : Bool)
    (hget : cacheGet cache obj_id = some e) :
    fetchOne env cache inc obj_id = fetchCached env inc obj_id e := by
  rw [fetchOne, hget]

theorem fetchLoop_eq (env : Env) (cache : Cache) (inc : Bool) :
    ∀ (ids : List String) (rs : List FetchResult) (es : List ErrorEntry),
      fetchLoop env cache inc ids rs es =
        (rs ++ ids.filterMap (fetchOneOk env cache inc),
         es ++ ids.filterMap (fetchOneErr env cache inc)) := by
  intro ids
  induction ids with
  | nil => intro rs es; simp [fetchLoop]
  | cons i rest ih =>
    intro rs es
    cases h : fetchOne env cache inc i with
    | ok r => simp [fetchLoop, h, ih, fetchOneOk, fetchOneErr]
    | error e => simp [fetchLoop, h, ih, fetchOneOk, fetchOneErr]

theorem fetch_results_eq (env : Env) (cache : Cache) (ids : ObjectIds) (inc : Bool) :
    (fetch env cache ids inc).results = (normalizeIds ids).filterMap (fetchOneOk env cache inc) := by
  simp [fetch, fetchLoop_eq]

theorem fetch_errsList_eq (env : Env) (cache : Cache) (ids : ObjectIds) (inc : Bool) :
    (fetch env cache ids inc).errors.getD []
      = (normalizeIds ids).filterMap (fetchOneErr env cache inc) := by
  simp only [fetch, fetchLoop_eq, List.nil_append]
  split
  · next hsplit => simp [List.isEmpty_iff.mp hsplit]
  · simp

theorem fetch_failed_eq (env : Env) (cache : Cache) (ids : ObjectIds) (inc : Bool) :
    (fetch env cache ids inc).failed
      = ((normalizeIds ids).filterMap (fetchOneErr env cache inc)).length := by
  simp [fetch, fetchLoop_eq]

theorem fetch_fetched_eq (env : Env) (cache : Cache) (ids : ObjectIds) (inc : Bool) :
    (fetch env cache ids inc).fetched
      = ((normalizeIds ids).filterMap (fetchOneOk env cache inc)).length := by
  simp [fetch, fetchLoop_eq]

theorem fetch_success_eq (env : Env) (cache : Cache) (ids : ObjectIds) (inc : Bool) :
    (fetch env cache ids inc).success
      = !((normalizeIds ids).filterMap (fetchOneOk env cache inc)).isEmpty := by
  simp [fetch, fetchLoop_eq]

theorem fetch_errors_eq (env : Env) (cache : Cache) (ids : ObjectIds) (inc : Bool) :
    (fetch env cache ids inc).errors
      = (if ((normalizeIds ids).filterMap (fetchOneErr env cache inc)).isEmpty then none
         else some ((normalizeIds ids).filterMap (fetchOneErr env cache inc))) := by
  simp [fetch, fetchLoop_eq]

theorem filterMap_ok_err_length (env : Env) (cache : Cache) (inc : Bool) :
    ∀ ids : List String,
      (ids.filterMap (fetchOneOk env cache inc)).length
        + (ids.filterMap (fetchOneErr env cache inc)).length = ids.length := by
  intro ids
  induction ids with
  | nil => simp
  | cons i rest ih =>
    cases h : fetchOne env cache inc i with
    | ok r =>
      simp only [List.filterMap_cons, fetchOneOk, fetchOneErr, h]
      simp only [fetchOneOk, fetchOneErr] at ih
      simp [ih]
      omega
    | error e =>
      simp only [List.filterMap_cons, fetchOneOk, fetchOneErr, h]
      simp only [fetchOneOk, fetchOneErr] at ih
      simp [ih]
      omega

/-- C2. A token absent from the object cache produces, for any environment
and content flag, exactly the error entry
`"Object ID not found in cache. Please search again."`: its processing does
not depend on the provider environment at all (no provider call can
influence it), it yields no result record, it is counted in `failed`, and a
single unknown token fetched against an empty cache returns
`fetched = 0, failed = 1`. -/
theorem fetch_unknown_token (env env' : Env) (cache : Cache) (inc inc' : Bool) (id : String)
    (h : cacheGet cache id = none) :
    fetchOne env cache inc id
        = .error ⟨id, "Object ID not found in cache. Please search again."⟩
    ∧ fetchOne env cache inc id = fetchOne env' cache inc' id
    ∧ fetchOneOk env cache inc id = none
    ∧ (∀ ids, id ∈ normalizeIds ids →
        ErrorEntry.mk id "Object ID not found in cache. Please search again."
            ∈ (fetch env cache ids inc).errors.getD []
        ∧ 1 ≤ (fetch env cache ids inc).failed)
    ∧ fetch env ([] : Cache) (.one id) inc
        = ⟨false, [], some [⟨id, "Object ID not found in cache. Please search again."⟩], 0, 1⟩ := by
  have h1 : fetchOne env cache inc id
      = .error ⟨id, "Object ID not found in cache. Please search again."⟩ := by
    simp [fetchOne, h]
  have h1' : fetchOne env' cache inc' id
      = .error ⟨id, "Object ID not found in cache. Please search again."⟩ := by
    simp [fetchOne, h]
  have herr : fetchOneErr env cache inc id
      = some ⟨id, "Object ID not found in cache. Please search again."⟩ := by
    simp [fetchOneErr, h1]
  refine ⟨h1, h1.trans h1'.symm, by simp [fetchOneOk, h1], ?_, ?_⟩
  · intro ids hid
    have hmem : ErrorEntry.mk id "Object ID not found in cache. Please search again."
        ∈ (normalizeIds ids).filterMap (fetchOneErr env cache inc) :=
      List.mem_filterMap.mpr ⟨id, hid, herr⟩
    refine ⟨by rw [fetch_errsList_eq]; exact hmem, ?_⟩
    rw [fetch_failed_eq]
    exact List.length_pos_of_mem hmem
  · have hempty : cacheGet ([] : Cache) id = none := rfl
    simp [fetch, fetchLoop, fetchOne, hempty, normalizeIds]

/-- C2 witness: the unknown token of the specification example against an
empty registry. -/
theorem fetch_unknown_token_witness :
    fetchOne arbEnv ([] : Cache) false "deadbeefdeadbeef"
      = .error ⟨"deadbeefdeadbeef", "Object ID not found in cache. Please search again."⟩
    ∧ fetch arbEnv ([] : Cache) (.one "deadbeefdeadbeef") false
      = ⟨false, [], some [⟨"deadbeefdeadbeef", "Object ID not found in cache. Please search again."⟩], 0, 1⟩ := by
  have h := fetch_unknown_token arbEnv arbEnv [] false false "deadbeefdeadbeef" (by rfl)
  exact ⟨h.1, h.2.2.2.2⟩

/-- C3. Tokens of a fetch batch are processed independently: the `results`
and `errors` of the response are exactly the per-token outcomes of
`fetchOne` collected over the (normalised) input list, every token ends in
exactly one of the two lists, and a batch of one resolvable and one unknown
token returns `fetched = 1, failed = 1` with `results` holding exactly the
resolvable token's record and `errors` exactly the unknown one's entry. -/
theorem fetch_batch_isolation (env : Env) (cache : Cache) (inc : Bool) (ids : ObjectIds) :
    ((fetch env cache ids inc).results = (normalizeIds ids).filterMap (fetchOneOk env cache inc))
    ∧ ((fetch env cache ids inc).errors.getD []
        = (normalizeIds ids).filterMap (fetchOneErr env cache inc))
    ∧ ((fetch env cache ids inc).fetched + (fetch env cache ids inc).failed
        = (normalizeIds ids).length)
    ∧ (∀ a b r, fetchOne env cache inc a = .ok r → cacheGet cache b = none →
        fetch env cache (.many [a, b]) inc
          = ⟨true, [r], some [⟨b, "Object ID not found in cache. Please search again."⟩], 1, 1⟩) := by
  refine ⟨fetch_results_eq env cache ids inc, fetch_errsList_eq env cache ids inc, ?_, ?_⟩
  · rw [fetch_failed_eq, fetch_fetched_eq]
    exact filterMap_ok_err_length env cache inc (normalizeIds ids)
  · intro a b r ha hb
    have hbmiss : fetchOne env cache inc b
        = .error ⟨b, "Object ID not found in cache. Please search again."⟩ := by
      simp [fetchOne, hb]
    simp [fetch, fetchLoop, ha, hbmiss, normalizeIds]

/-- C3 witness environment: a provider holding one company. -/
def w3company : Company :=
  { cik := "0000320193", name := "Apple Inc.", tickers := ["AAPL"] }

/-- C3 witness environment. -/
def w3env : Env :=
  { arbEnv with get_company := fun _ => .ok w3company }

/-- C3 witness cache: one registered company token. -/
def w3cache : Cache :=
  [("t1", { type := "company", cik := "0000320193" })]

/-- C3 witness: one resolvable and one unknown token. -/
theorem fetch_batch_isolation_witness :
    fetch w3env w3cache (.many ["t1", "zz"]) false
      = ⟨true, [.companyRec (companyRecordOf "t1" w3company)],
          some [⟨"zz", "Object ID not found in cache. Please search again."⟩], 1, 1⟩ :=
  (fetch_batch_isolation w3env w3cache false (.many ["t1", "zz"])).2.2.2 "t1" "zz"
    (.companyRec (companyRecordOf "t1" w3company)) (by rfl) (by rfl)

/-- C8. With no exception escaping the batch (which cannot happen in this
embedding), the response's `success` is `true` exactly when at least one
result record was produced, and `errors` is `null` (`none`) exactly when no
per-token error occurred — in particular `errors` is never an empty list. -/
theorem fetch_success_iff_results (env : Env) (cache : Cache) (ids : ObjectIds) (inc : Bool) :
    ((fetch env cache ids inc).success = true ↔ (fetch env cache ids inc).results ≠ [])
    ∧ ((fetch env cache ids inc).success = true ↔ 1 ≤ (fetch env cache ids inc).fetched)
    ∧ ((fetch env cache ids inc).errors = none ↔ (fetch env cache ids inc).failed = 0)
    ∧ (fetch env cache ids inc).errors ≠ some [] := by
  have hres := fetch_results_eq env cache ids inc
  have hfet := fetch_fetched_eq env cache ids inc
  have hsuc := fetch_success_eq env cache ids inc
  have hfail := fetch_failed_eq env cache ids inc
  have herrs := fetch_errors_eq env cache ids inc
  refine ⟨?_, ?_, ?_, ?_⟩
  · rw [hsuc, hres, Bool.not_eq_true', List.isEmpty_eq_false]
  · rw [hsuc, hfet, Bool.not_eq_true', List.isEmpty_eq_false]
    rw [← List.length_pos]
    omega
  · rw [herrs, hfail]
    split
    · next hsplit => simp [List.isEmpty_iff.mp hsplit]
    · next hsplit =>
      have hne : ((normalizeIds ids).filterMap (fetchOneErr env cache inc)) ≠ [] := by
        intro hc
        exact hsplit (by simp [hc])
      simp only [List.length_eq_zero]
      exact ⟨fun hc => absurd hc (by simp), fun hc => absurd hc hne⟩
  · rw [herrs]
    split
    · simp
    · next hsplit =>
      intro hcontra
      exact hsplit (by simp [Option.some.inj hcontra])

/-! ## Content truncation (C7) -/

/-- A 60000-character document body, for the truncation example. -/
def c7body : String := String.mk (List.replicate 60000 'a')

/-- C7. Fetched filing text longer than 50000 characters is returned as
exactly its first 50000 characters with the explicit truncation marker
appended (so the 60000-character body yields exactly 50000 characters plus
the marker); text of at most 50000 characters passes through unmodified; and
with `include_content` set the assembled record always carries the processed
content (never silently dropped, never unbounded). -/
theorem fetch_content_truncation (env : Env) (obj_id : String) (f : Filing) (s : String) :
    (50000 < s.length →
        truncateContent s
          = String.mk (s.data.take 50000) ++ "\n\n[Content truncated - too large for response]"
        ∧ (String.mk (s.data.take 50000)).length = 50000
        ∧ (truncateContent s).length
            = 50000 + ("\n\n[Content truncated - too large for response]").length)
    ∧ (s.length ≤ 50000 → truncateContent s = s)
    ∧ (env.text f = some s →
        (filingRecordWithContent env true obj_id f).content = some (truncateContent s))
    ∧ ((filingRecordWithContent env false obj_id f).content = none)
    ∧ truncateContent c7body
        = String.mk (List.replicate 50000 'a') ++ "\n\n[Content truncated - too large for response]" := by
  obtain ⟨l⟩ := s
  refine ⟨?_, ?_, ?_, ?_, ?_⟩
  · intro hlong
    have hlen : l.length = (String.mk l).length := rfl
    have heq : truncateContent (String.mk l)
        = String.mk (l.take 50000) ++ "\n\n[Content truncated - too large for response]" := by
      simp only [truncateContent, if_pos hlong]
    refine ⟨heq, ?_, ?_⟩
    · show (l.take 50000).length = 50000
      rw [List.length_take]
      rw [← hlen] at hlong
      omega
    · rw [heq]
      show ((l.take 50000) ++ ("\n\n[Content truncated - too large for response]").data).length
        = 50000 + ("\n\n[Content truncated - too large for response]").length
      rw [List.length_append, List.length_take]
      rw [← hlen] at hlong
      have : ("\n\n[Content truncated - too large for response]").data.length
          = ("\n\n[Content truncated - too large for response]").length := rfl
      omega
  · intro hshort
    simp only [truncateContent]
    rw [if_neg (by omega)]
  · intro htext
    simp [filingRecordWithContent, htext]
  · simp [filingRecordWithContent, baseFilingRecord]
  · have hlen : (50000 : Nat) < c7body.length := by
      show (50000 : Nat) < (List.replicate 60000 'a').length
      rw [List.length_replicate]
      omega
    simp only [truncateContent, if_pos hlen]
    show String.mk ((List.replicate 60000 'a').take 50000) ++ _ = _
    rw [List.take_replicate]
    have hmin : (50000 : Nat) ⊓ 60000 = 50000 := by omega
    rw [hmin]

/-- C7 witness environment: text retrieval returns the 60000-character body. -/
def w7env : Env := { arbEnv with text := fun _ => some c7body }

/-- C7 witness filing. -/
def w7filing : Filing :=
  { accession_number := "0001-23-456", cik := "C7", company := "Z", form := "10-K"
    filing_date := PyDate.str "2024-01-01" }

/-- C7 witness: the 60000-character body is truncated to exactly 50000
characters plus the marker, and the record carries it. -/
theorem fetch_content_truncation_witness :
    (truncateContent c7body
        = String.mk (c7body.data.take 50000) ++ "\n\n[Content truncated - too large for response]"
      ∧ (String.mk (c7body.data.take 50000)).length = 50000
      ∧ (truncateContent c7body).length
          = 50000 + ("\n\n[Content truncated - too large for response]").length)
    ∧ (filingRecordWithContent w7env true "t7" w7filing).content = some (truncateContent c7body) := by
  have h := fetch_content_truncation w7env "t7" w7filing c7body
  have hlen : (50000 : Nat) < c7body.length := by
    show (50000 : Nat) < (List.replicate 60000 'a').length
    rw [List.length_replicate]
    omega
  exact ⟨h.1 hlen, h.2.2.1 rfl⟩

/-! ## The filing scan of fetch (C6) -/

/-- C6 counterexample company. -/
def c6company : Company := { cik := "C1", name := "X Corp", tickers := [] }

/-- C6 counterexample filing: its accession number uses a dot separator. -/
def c6filing : Filing :=
  { accession_number := "0001.23", cik := "C1", company := "X Corp", form := "10-K"
    filing_date := PyDate.str "2024-01-01" }

/-- C6 counterexample environment. -/
def c6env : Env :=
  { arbEnv with
    get_company := fun _ => .ok c6company
    get_filings := fun _ => .ok [c6filing] }

/-- C6 counterexample cache: the registered accession number uses a dash. -/
def c6cache : Cache :=
  [("tok6", { type := "filing", cik := "C1", accession_number := some "0001-23" })]

/-- C6 counterexample: under the claimed normalization (strip all
non-alphanumeric separators) the cached accession `"0001-23"` and the
provider filing's accession `"0001.23"` are equal, so the claimed scan would
find the filing; the code strips only dashes, finds no match, and reports
the filing as not found. -/
theorem fetch_filing_scan_counterexample :
    stripNonAlnum "0001-23" = stripNonAlnum c6filing.accession_number
    ∧ accessionMatches "0001-23" c6filing = false
    ∧ c6env.get_filings c6company = .ok [c6filing]
    ∧ fetchOne c6env c6cache false "tok6" = .error ⟨"tok6", "Filing 0001-23 not found"⟩ :=
  ⟨by decide, by decide, rfl, by rfl⟩

/-- C6 (amended). For a token resolving to a filing entry, fetch re-fetches
the owning company, then linearly scans that company's current filing list
comparing accession identifiers after stripping dash separators from both
sides; when no filing matches, the `FilingNotFound` condition becomes that
token's per-item error entry and the rest of the batch proceeds. -/
theorem fetch_filing_scan_dashes (env : Env) (cache : Cache) (inc : Bool) (obj_id : String)
    (e : CacheEntry) (acc : String) (comp : Company) (fs : List Filing)
    (hg : cacheGet cache obj_id = some e) (ht : e.type = "filing")
    (ha : e.accession_number = some acc)
    (hc : env.get_company e.cik = .ok comp) (hf : env.get_filings comp = .ok fs) :
    (∀ f, accessionMatches acc f
        = (pyReplace f.accession_number "-" "" == pyReplace acc "-" ""))
    ∧ (fs.find? (accessionMatches acc) = none →
        fetchOne env cache inc obj_id = .error ⟨obj_id, "Filing " ++ acc ++ " not found"⟩
        ∧ ∀ ids, obj_id ∈ normalizeIds ids →
            ErrorEntry.mk obj_id ("Filing " ++ acc ++ " not found")
              ∈ (fetch env cache ids inc).errors.getD [])
    ∧ (∀ f, fs.find? (accessionMatches acc) = some f →
        fetchOne env cache inc obj_id
          = .ok (.filingRec (filingRecordWithContent env inc obj_id f))) := by
  have hbase : fetchOne env cache inc obj_id
      = (match fs.find? (accessionMatches acc) with
         | none => .error ⟨obj_id, "Filing " ++ acc ++ " not found"⟩
         | some filing => .ok (.filingRec (filingRecordWithContent env inc obj_id filing))) := by
    rw [fetchOne_some env inc hg, fetchCached]
    have hnc : ¬ e.type = "company" := by
      rw [ht]
      decide
    rw [if_neg hnc, if_pos ht]
    simp only [ha, hc, hf]
  refine ⟨fun f => rfl, ?_, ?_⟩
  · intro hnone
    rw [hnone] at hbase
    refine ⟨hbase, ?_⟩
    intro ids hid
    have herr : fetchOneErr env cache inc obj_id
        = some ⟨obj_id, "Filing " ++ acc ++ " not found"⟩ := by
      simp [fetchOneErr, hbase]
    rw [fetch_errsList_eq]
    exact List.mem_filterMap.mpr ⟨obj_id, hid, herr⟩
  · intro f hsome
    rw [hsome] at hbase
    exact hbase

/-- C6 witness company. -/
def w6company : Company := { cik := "C2", name := "Y Corp", tickers := [] }

/-- C6 witness filing: accession stored without dashes. -/
def w6filing : Filing :=
  { accession_number := "000123456", cik := "C2", company := "Y Corp", form := "10-Q"
    filing_date := PyDate.str "2024-02-02" }

/-- C6 witness environment. -/
def w6env : Env :=
  { arbEnv with
    get_company := fun _ => .ok w6company
    get_filings := fun _ => .ok [w6filing] }

/-- C6 witness cache: the registered accession number carries dashes. -/
def w6cache : Cache :=
  [("tok6w", { type := "filing", cik := "C2", accession_number := some "0001-23-456" })]

/-- C6 witness: a dashed cached accession matches the dashless provider
accession, and the filing record is assembled. -/
theorem fetch_filing_scan_dashes_witness :
    fetchOne w6env w6cache false "tok6w"
      = .ok (.filingRec (filingRecordWithContent w6env false "tok6w" w6filing)) :=
  (fetch_filing_scan_dashes w6env w6cache false "tok6w"
      { type := "filing", cik := "C2", accession_number := some "0001-23-456" }
      "0001-23-456" w6company [w6filing]
      (by rfl) (by rfl) (by rfl) (by rfl) (by rfl)).2.2 w6filing (by rfl)

/-! ## Ranking (C4): the stable descending sort and top-k truncation -/

theorem insertDesc_perm (a : SearchResult) (l : List SearchResult) :
    (insertDesc a l).Perm (a :: l) := by
  induction l with
  | nil => exact List.Perm.refl _
  | cons b l ih =>
    simp only [insertDesc]
    split
    · exact List.Perm.refl _
    · exact (ih.cons b).trans (List.Perm.swap a b l)

theorem sortDesc_perm (l : List SearchResult) : (sortDesc l).Perm l := by
  induction l with
  | nil => exact List.Perm.refl _
  | cons a l ih => exact (insertDesc_perm a (sortDesc l)).trans (ih.cons a)

theorem mem_insertDesc {x a : SearchResult} {l : List SearchResult} :
    x ∈ insertDesc a l ↔ x = a ∨ x ∈ l := by
  rw [(insertDesc_perm a l).mem_iff, List.mem_cons]

theorem pairwise_insertDesc (a : SearchResult) (l : List SearchResult)
    (h : l.Pairwise (fun x y => y.relevance_score ≤ x.relevance_score)) :
    (insertDesc a l).Pairwise (fun x y => y.relevance_score ≤ x.relevance_score) := by
  induction l with
  | nil => simp [insertDesc]
  | cons b l ih =>
    rw [List.pairwise_cons] at h
    simp only [insertDesc]
    split
    · next hba =>
      rw [List.pairwise_cons]
      refine ⟨?_, List.pairwise_cons.mpr h⟩
      intro x hx
      rcases List.mem_cons.mp hx with hxb | hxl
      · subst hxb; exact hba
      · exact le_trans (h.1 x hxl) hba
    · next hba =>
      rw [List.pairwise_cons]
      refine ⟨?_, ih h.2⟩
      intro x hx
      rcases mem_insertDesc.mp hx with hxa | hxl
      · subst hxa
        exact le_of_lt (lt_of_not_le hba)
      · exact h.1 x hxl

theorem sortDesc_pairwise (l : List SearchResult) :
    (sortDesc l).Pairwise (fun x y => y.relevance_score ≤ x.relevance_score) := by
  induction l with
  | nil => simp [sortDesc]
  | cons a l ih => exact pairwise_insertDesc a (sortDesc l) ih

theorem filter_insertDesc (qv : ℚ) (a : SearchResult) (l : List SearchResult) :
    (insertDesc a l).filter (fun r => decide (r.relevance_score = qv))
      = if a.relevance_score = qv then
          a :: l.filter (fun r => decide (r.relevance_score = qv))
        else l.filter (fun r => decide (r.relevance_score = qv)) := by
  induction l with
  | nil =>
    by_cases hqa : a.relevance_score = qv <;> simp [insertDesc, List.filter_cons, hqa]
  | cons b l ih =>
    simp only [insertDesc]
    split
    · next hba =>
      by_cases hqa : a.relevance_score = qv <;> simp [List.filter_cons, hqa]
    · next hba =>
      have hlt : a.relevance_score < b.relevance_score := lt_of_not_le hba
      by_cases hqa : a.relevance_score = qv
      · have hbq : ¬ (b.relevance_score = qv) := by
          intro hc
          rw [hqa] at hlt
          rw [hc] at hlt
          exact lt_irrefl qv hlt
        simp [List.filter_cons, hbq, ih, hqa]
      · by_cases hbq : b.relevance_score = qv <;>
          simp [List.filter_cons, hbq, ih, hqa]

theorem sortDesc_filter (qv : ℚ) (l : List SearchResult) :
    (sortDesc l).filter (fun r => decide (r.relevance_score = qv))
      = l.filter (fun r => decide (r.relevance_score = qv)) := by
  induction l with
  | nil => rfl
  | cons a l ih =>
    simp only [sortDesc, filter_insertDesc, ih]
    by_cases hqa : a.relevance_score = qv <;> simp [List.filter_cons, hqa]

/-- Candidate A of the specification's ranking example (score 0.3). -/
def c4A : SearchResult :=
  { object_id := "A", type := "company", title := "A", relevance_score := 3 / 10
    cik := "1", description := "" }

/-- Candidate B of the specification's ranking example (score 0.9). -/
def c4B : SearchResult :=
  { object_id := "B", type := "company", title := "B", relevance_score := 9 / 10
    cik := "2", description := "" }

/-- Candidate C of the specification's ranking example (score 0.6). -/
def c4C : SearchResult :=
  { object_id := "C", type := "company", title := "C", relevance_score := 6 / 10
    cik := "3", description := "" }

/-- C4. The merged candidate list is sorted descending by relevance score
with discovery order as the tie-break and truncated to `top_k`: the results
of `search` are exactly `rankTopK` of the merged candidates; the ranked list
is pairwise descending; the sort is a permutation that preserves, for every
fixed score, the original discovery order of the candidates carrying that
score (stability, no re-randomization); and the example `[0.3, 0.9, 0.6]` in
discovery order `[A, B, C]` with `top_k = 2` ranks to `[B, C]`. -/
theorem search_ranking_stable_topk :
    (∀ env cache q dts k d,
        (search env cache q dts k d).1.results
          = rankTopK (searchCandidates env cache q (dts.getD ["companies", "filings"]) k d).1 k)
    ∧ (∀ l k, (rankTopK l k).Pairwise (fun x y => y.relevance_score ≤ x.relevance_score))
    ∧ (∀ l (qv : ℚ), (sortDesc l).filter (fun r => decide (r.relevance_score = qv))
          = l.filter (fun r => decide (r.relevance_score = qv)))
    ∧ (∀ l, (sortDesc l).Perm l)
    ∧ (∀ l k, rankTopK l k = (sortDesc l).take k)
    ∧ rankTopK [c4A, c4B, c4C] 2 = [c4B, c4C] := by
  refine ⟨fun env cache q dts k d => rfl, ?_, fun l qv => sortDesc_filter qv l, sortDesc_perm,
    fun l k => rfl, ?_⟩
  · intro l k
    exact List.Pairwise.sublist (List.take_sublist k (sortDesc l)) (sortDesc_pairwise l)
  · have h1 : ¬ (c4B.relevance_score ≤ c4A.relevance_score) := by
      show ¬ ((9 : ℚ) / 10 ≤ 3 / 10)
      norm_num
    have h2 : ¬ (c4C.relevance_score ≤ c4A.relevance_score) := by
      show ¬ ((6 : ℚ) / 10 ≤ 3 / 10)
      norm_num
    have h3 : c4C.relevance_score ≤ c4B.relevance_score := by
      show (6 : ℚ) / 10 ≤ 9 / 10
      norm_num
    have h4 : c4A.relevance_score ≤ c4C.relevance_score := by
      show (3 : ℚ) / 10 ≤ 6 / 10
      norm_num
    simp [rankTopK, sortDesc, insertDesc, h1, h2, h3, h4]

/-! ## Search loop lemmas -/

theorem searchCompaniesLoop_mem (q : String) :
    ∀ (cs : List Company) (acc : List SearchResult) (cache : Cache) (r : SearchResult),
      r ∈ (searchCompaniesLoop q cs acc cache).1 → r ∈ acc ∨ r.type = "company" := by
  intro cs
  induction cs with
  | nil =>
    intro acc cache r hr
    left
    simpa [searchCompaniesLoop] using hr
  | cons c rest ih =>
    intro acc cache r hr
    simp only [searchCompaniesLoop] at hr
    rcases ih _ _ r hr with h | h
    · rcases List.mem_append.mp h with h1 | h2
      · exact Or.inl h1
      · right
        have : r = companySearchResult q c := by simpa using h2
        rw [this]
        rfl
    · exact Or.inr h

theorem searchFilingsLoop_mem (env : Env) (q : String) (k : Nat) (d : Option Int) :
    ∀ (fs : List Filing) (cnt : Nat) (acc : List SearchResult) (cache : Cache) (r : SearchResult),
      r ∈ (searchFilingsLoop env q k d fs cnt acc cache).1 →
      r ∈ acc ∨ ∃ f ∈ fs, recencyDrop env d f = false ∧ r = filingSearchResult env q f := by
  intro fs
  induction fs with
  | nil =>
    intro cnt acc cache r hr
    left
    simpa [searchFilingsLoop] using hr
  | cons f rest ih =>
    intro cnt acc cache r hr
    simp only [searchFilingsLoop] at hr
    split at hr
    · exact Or.inl hr
    · next hcap =>
      split at hr
      · next hdrop =>
        rcases ih cnt acc cache r hr with h | ⟨f', hf', hd', heq⟩
        · exact Or.inl h
        · exact Or.inr ⟨f', List.mem_cons_of_mem f hf', hd', heq⟩
      · next hdrop =>
        rcases ih (cnt + 1) _ _ r hr with h | ⟨f', hf', hd', heq⟩
        · rcases List.mem_append.mp h with h1 | h2
          · exact Or.inl h1
          · refine Or.inr ⟨f, List.mem_cons_self f rest, ?_, by simpa using h2⟩
            rw [Bool.not_eq_true] at hdrop
            exact hdrop
        · exact Or.inr ⟨f', List.mem_cons_of_mem f hf', hd', heq⟩

theorem searchCompaniesPart_mem {env : Env} {cache : Cache} {q : String} {dts : List String}
    {k : Nat} {r : SearchResult} (hr : r ∈ (searchCompaniesPart env cache q dts k).1) :
    r.type = "company" := by
  simp only [searchCompaniesPart] at hr
  split at hr
  · split at hr
    · rcases searchCompaniesLoop_mem q _ [] cache r hr with h | h
      · exact absurd h (List.not_mem_nil r)
      · exact h
    · exact absurd hr (List.not_mem_nil r)
  · exact absurd hr (List.not_mem_nil r)

theorem searchFilingsPart_mem {env : Env} {cache : Cache} {q : String} {dts : List String}
    {k : Nat} {d : Option Int} {r : SearchResult}
    (hr : r ∈ (searchFilingsPart env cache q dts k d).1) :
    ∃ fs, filingsPool env q k = .ok fs ∧
      ∃ f ∈ fs, recencyDrop env d f = false ∧ r = filingSearchResult env q f := by
  simp only [searchFilingsPart] at hr
  split at hr
  · split at hr
    · next fs hfs =>
      rcases searchFilingsLoop_mem env q k d fs 0 [] cache r hr with h | hex
      · exact absurd h (List.not_mem_nil r)
      · exact ⟨fs, hfs, hex⟩
    · exact absurd hr (List.not_mem_nil r)
  · exact absurd hr (List.not_mem_nil r)

theorem mem_search_results {env : Env} {cache : Cache} {q : String} {dts : Option (List String)}
    {k : Nat} {d : Option Int} {r : SearchResult}
    (hr : r ∈ (search env cache q dts k d).1.results) :
    r ∈ (searchCandidates env cache q (dts.getD ["companies", "filings"]) k d).1 := by
  have h0 : (search env cache q dts k d).1.results
      = rankTopK (searchCandidates env cache q (dts.getD ["companies", "filings"]) k d).1 k := rfl
  rw [h0, rankTopK] at hr
  exact (sortDesc_perm _).subset ((List.take_sublist k _).subset hr)

/-- C5. With the recency window set (to a positive number of days, as the
specification's contract requires), every filing result of `search` comes
from a filing of the fetched pool that survived the cutoff comparison — a
filing older than `now` minus the window never reaches the results, however
well it matches the query textually; and a string filing date enters that
comparison as ISO-8601 with a trailing `Z` rewritten to the UTC offset. -/
theorem search_recency_filter (env : Env) (cache : Cache) (q : String)
    (dts : Option (List String)) (k : Nat) (n : Int) (h : 0 < n) :
    (∀ r ∈ (search env cache q dts k (some n)).1.results, r.type = "filing" →
        ∃ fs, filingsPool env q k = .ok fs ∧
          ∃ f ∈ fs, ¬ (filingDateVal env f.filing_date < env.now - n * 86400)
            ∧ r = filingSearchResult env q f)
    ∧ (∀ s, filingDateVal env (.str s) = env.fromisoformat (pyReplace s "Z" "+00:00")) := by
  constructor
  · intro r hr hrt
    have hr' := mem_search_results hr
    have hsplit : (searchCandidates env cache q (dts.getD ["companies", "filings"]) k (some n)).1
        = (searchCompaniesPart env cache q (dts.getD ["companies", "filings"]) k).1
          ++ (searchFilingsPart env
                (searchCompaniesPart env cache q (dts.getD ["companies", "filings"]) k).2
                q (dts.getD ["companies", "filings"]) k (some n)).1 := rfl
    rw [hsplit] at hr'
    rcases List.mem_append.mp hr' with h1 | h2
    · have hco := searchCompaniesPart_mem h1
      rw [hrt] at hco
      exact absurd hco (by decide)
    · obtain ⟨fs, hfs, f, hf, hdrop, heq⟩ := searchFilingsPart_mem h2
      refine ⟨fs, hfs, f, hf, ?_, heq⟩
      intro hlt
      have hne : n ≠ 0 := by omega
      have htrue : recencyDrop env (some n) f = true := by
        simp [recencyDrop, hne, hlt]
      rw [hdrop] at htrue
      exact Bool.false_ne_true htrue
  · intro s
    rfl

/-- C5 witness filing, dated 100 days before the witness clock. -/
def w5filing : Filing :=
  { accession_number := "A1", cik := "C5", company := "Old Co", form := "10-K"
    filing_date := PyDate.date 0 }

/-- C5 witness environment: clock at day 100, global pool holds the old filing. -/
def w5env : Env :=
  { arbEnv with
    edgar_get_filings := fun _ => .ok [w5filing]
    now := 8640000 }

/-- C5 witness: the theorem instantiated at a 30-day window. -/
theorem search_recency_filter_witness :
    (∀ r ∈ (search w5env [] "Old Co 10-K" none 10 (some 30)).1.results, r.type = "filing" →
        ∃ fs, filingsPool w5env "Old Co 10-K" 10 = .ok fs ∧
          ∃ f ∈ fs, ¬ (filingDateVal w5env f.filing_date < w5env.now - 30 * 86400)
            ∧ r = filingSearchResult w5env "Old Co 10-K" f)
    ∧ (∀ s, filingDateVal w5env (.str s) = w5env.fromisoformat (pyReplace s "Z" "+00:00")) :=
  search_recency_filter w5env [] "Old Co 10-K" none 10 30 (by decide)

/-! ## Registry well-formedness (C9) -/

theorem cacheSet_WF {cache : Cache} (hwf : RegistryWF cache) {k : String} {v : CacheEntry}
    (hv : v.type = "company" ∨ v.type = "filing") : RegistryWF (cacheSet cache k v) := by
  intro p hp
  rcases List.mem_cons.mp hp with h | h
  · subst h
    exact hv
  · exact hwf p (List.mem_of_mem_filter h)

theorem searchCompaniesLoop_WF (q : String) :
    ∀ (cs : List Company) (acc : List SearchResult) (cache : Cache), RegistryWF cache →
      RegistryWF (searchCompaniesLoop q cs acc cache).2 := by
  intro cs
  induction cs with
  | nil =>
    intro acc cache hwf
    simpa [searchCompaniesLoop] using hwf
  | cons c rest ih =>
    intro acc cache hwf
    simp only [searchCompaniesLoop]
    exact ih _ _ (cacheSet_WF hwf (Or.inl rfl))

theorem searchFilingsLoop_WF (env : Env) (q : String) (k : Nat) (d : Option Int) :
    ∀ (fs : List Filing) (cnt : Nat) (acc : List SearchResult) (cache : Cache), RegistryWF cache →
      RegistryWF (searchFilingsLoop env q k d fs cnt acc cache).2 := by
  intro fs
  induction fs with
  | nil =>
    intro cnt acc cache hwf
    simpa [searchFilingsLoop] using hwf
  | cons f rest ih =>
    intro cnt acc cache hwf
    simp only [searchFilingsLoop]
    split
    · exact hwf
    · split
      · exact ih cnt acc cache hwf
      · exact ih (cnt + 1) _ _ (cacheSet_WF hwf (Or.inr rfl))

theorem searchCompaniesPart_WF (env : Env) (cache : Cache) (q : String) (dts : List String)
    (k : Nat) (hwf : RegistryWF cache) : RegistryWF (searchCompaniesPart env cache q dts k).2 := by
  simp only [searchCompaniesPart]
  split
  · split
    · exact searchCompaniesLoop_WF q _ [] cache hwf
    · exact hwf
  · exact hwf

theorem searchFilingsPart_WF (env : Env) (cache : Cache) (q : String) (dts : List String)
    (k : Nat) (d : Option Int) (hwf : RegistryWF cache) :
    RegistryWF (searchFilingsPart env cache q dts k d).2 := by
  simp only [searchFilingsPart]
  split
  · split
    · exact searchFilingsLoop_WF env q k d _ 0 [] cache hwf
    · exact hwf
  · exact hwf

theorem cacheGet_mem {cache : Cache} {id : String} {e : CacheEntry}
    (h : cacheGet cache id = some e) : ∃ kk, (kk, e) ∈ cache := by
  simp only [cacheGet, Option.map_eq_some'] at h
  obtain ⟨p, hfind, hp2⟩ := h
  subst hp2
  exact ⟨p.1, Prod.mk.eta ▸ List.mem_of_find?_eq_some hfind⟩

theorem fetchOne_ok_shape {env : Env} {cache : Cache} {inc : Bool} {id : String} {r : FetchResult}
    (hwf : RegistryWF cache) (h : fetchOne env cache inc id = .ok r) :
    (∃ cr, r = .companyRec cr) ∨ (∃ fr, r = .filingRec fr) := by
  cases hget : cacheGet cache id with
  | none =>
    rw [fetchOne, hget] at h
    exact Except.noConfusion h
  | some e =>
    rw [fetchOne_some env inc hget, fetchCached] at h
    obtain ⟨kk, hk⟩ := cacheGet_mem hget
    have htype := hwf (kk, e) hk
    by_cases h1 : e.type = "company"
    · rw [if_pos h1] at h
      cases hc : env.get_company e.cik with
      | error msg =>
        rw [hc] at h
        exact Except.noConfusion h
      | ok comp =>
        rw [hc] at h
        exact Or.inl ⟨companyRecordOf id comp, (Except.ok.inj h).symm⟩
    · rw [if_neg h1] at h
      rcases htype with ht | ht
      · exact absurd ht h1
      rw [if_pos ht] at h
      cases ha : e.accession_number with
      | none =>
        rw [ha] at h
        exact Except.noConfusion h
      | some acc =>
        simp only [ha] at h
        cases hc : env.get_company e.cik with
        | error msg =>
          simp only [hc] at h
          exact Except.noConfusion h
        | ok comp =>
          simp only [hc] at h
          cases hf : env.get_filings comp with
          | error msg =>
            simp only [hf] at h
            exact Except.noConfusion h
          | ok fs =>
            simp only [hf] at h
            cases hfind : fs.find? (accessionMatches acc) with
            | none =>
              simp only [hfind] at h
              exact Except.noConfusion h
            | some filing =>
              simp only [hfind] at h
              exact Or.inr ⟨filingRecordWithContent env inc id filing, (Except.ok.inj h).symm⟩

/-- C9. Every cache entry written by `search` carries entity type
`"company"` or `"filing"` (the invariant is preserved from any well-formed
cache, in particular the initial empty one), and consequently on such a
cache every result `fetch` produces is a live company or filing record —
the `"Unknown object type"` fallback that would serve the cached search-time
summary is unreachable. -/
theorem registry_types_and_no_stale_fallback :
    (∀ env cache q dts k d, RegistryWF cache → RegistryWF (search env cache q dts k d).2)
    ∧ (∀ env cache ids inc, RegistryWF cache →
        ∀ r ∈ (fetch env cache ids inc).results,
          (∃ cr, r = .companyRec cr) ∨ (∃ fr, r = .filingRec fr)) := by
  constructor
  · intro env cache q dts k d hwf
    show RegistryWF (searchFilingsPart env
      (searchCompaniesPart env cache q (dts.getD ["companies", "filings"]) k).2
      q (dts.getD ["companies", "filings"]) k d).2
    exact searchFilingsPart_WF env _ q _ k d (searchCompaniesPart_WF env cache q _ k hwf)
  · intro env cache ids inc hwf r hr
    rw [fetch_results_eq] at hr
    obtain ⟨i, hi, hoki⟩ := List.mem_filterMap.mp hr
    have hok : fetchOne env cache inc i = .ok r := by
      simp only [fetchOneOk] at hoki
      cases hret : fetchOne env cache inc i <;> rw [hret] at hoki
      · exact Option.noConfusion hoki
      · rw [Option.some.inj hoki]
    exact fetchOne_ok_shape hwf hok

/-- C9 witness: the empty cache and the one-company cache are well formed,
and the instantiated conclusions hold. -/
theorem registry_types_witness :
    RegistryWF (search arbEnv [] "q" none 10 (some 90)).2
    ∧ ∀ r ∈ (fetch w3env w3cache (.one "t1") false).results,
        (∃ cr, r = .companyRec cr) ∨ (∃ fr, r = .filingRec fr) :=
  ⟨registry_types_and_no_stale_fallback.1 arbEnv [] "q" none 10 (some 90)
      (by simp [RegistryWF]),
   registry_types_and_no_stale_fallback.2 w3env w3cache (.one "t1") false
      (by simp [RegistryWF, w3cache])⟩

/-! ## The filing candidate cap (C10) -/

theorem searchFilingsLoop_cap (env : Env) (q : String) (k : Nat) (d : Option Int) :
    ∀ (fs : List Filing) (acc : List SearchResult) (cache : Cache),
      searchFilingsLoop env q k d fs (k * 2) acc cache = (acc, cache) := by
  intro fs acc cache
  cases fs with
  | nil => rfl
  | cons f rest => simp [searchFilingsLoop]

theorem searchFilingsLoop_length (env : Env) (q : String) (k : Nat) (d : Option Int) :
    ∀ (fs : List Filing) (cnt : Nat) (acc : List SearchResult) (cache : Cache),
      ((searchFilingsLoop env q k d fs cnt acc cache).1).length ≤ acc.length + (k * 2 - cnt) := by
  intro fs
  induction fs with
  | nil =>
    intro cnt acc cache
    simp [searchFilingsLoop]
  | cons f rest ih =>
    intro cnt acc cache
    simp only [searchFilingsLoop]
    split
    · simp
    · next hcap =>
      split
      · exact ih cnt acc cache
      · have hrec := ih (cnt + 1) (acc ++ [filingSearchResult env q f])
          (cacheSet cache (filingSearchResult env q f).object_id (filingCacheEntry env q f))
        refine le_trans hrec ?_
        rw [List.length_append]
        simp only [List.length_cons, List.length_nil]
        omega

theorem searchFilingsPart_length (env : Env) (cache : Cache) (q : String) (dts : List String)
    (k : Nat) (d : Option Int) :
    ((searchFilingsPart env cache q dts k d).1).length ≤ k * 2 := by
  simp only [searchFilingsPart]
  split
  · split
    · next fs hfs =>
      have := searchFilingsLoop_length env q k d fs 0 [] cache
      simpa using this
    · simp
  · simp

/-- C10. The filing loop of `search` scores, registers and collects at most
`2 × top_k` filing candidates: once the count reaches the cap the loop
returns immediately, the filing block contributes at most `2 × top_k`
candidates however many filings the provider listing yields, and hence both
the merged candidate list and the final results hold at most `2 × top_k`
filing entries. -/
theorem search_filing_candidate_cap :
    (∀ env q k d fs acc cache, searchFilingsLoop env q k d fs (k * 2) acc cache = (acc, cache))
    ∧ (∀ env cache q dts k d,
        (((searchCandidates env cache q dts k d).1.filter
            (fun r => r.type == "filing")).length ≤ k * 2))
    ∧ (∀ env cache q dts k d,
        (((search env cache q dts k d).1.results.filter
            (fun r => r.type == "filing")).length ≤ k * 2)) := by
  have hcand : ∀ env cache q dts k d,
      (((searchCandidates env cache q dts k d).1.filter
          (fun r => r.type == "filing")).length ≤ k * 2) := by
    intro env cache q dts k d
    have hsplit : (searchCandidates env cache q dts k d).1
        = (searchCompaniesPart env cache q dts k).1
          ++ (searchFilingsPart env (searchCompaniesPart env cache q dts k).2 q dts k d).1 := rfl
    rw [hsplit, List.filter_append]
    have h1 : (searchCompaniesPart env cache q dts k).1.filter
        (fun r => r.type == "filing") = [] := by
      rw [List.filter_eq_nil_iff]
      intro r hr
      have := searchCompaniesPart_mem hr
      simp [this]
    rw [h1, List.nil_append]
    exact le_trans (List.length_filter_le _ _) (searchFilingsPart_length env _ q dts k d)
  refine ⟨searchFilingsLoop_cap, hcand, ?_⟩
  intro env cache q dts k d
  have h0 : (search env cache q dts k d).1.results
      = (sortDesc (searchCandidates env cache q (dts.getD ["companies", "filings"]) k d).1).take k := rfl
  rw [h0]
  have hsub : List.Sublist
      (((sortDesc (searchCandidates env cache q (dts.getD ["companies", "filings"]) k d).1).take
          k).filter (fun r => r.type == "filing"))
      ((sortDesc (searchCandidates env cache q (dts.getD ["companies", "filings"]) k d).1).filter
        (fun r => r.type == "filing")) :=
    List.Sublist.filter _ (List.take_sublist k _)
  refine le_trans hsub.length_le ?_
  have hperm := (sortDesc_perm
      (searchCandidates env cache q (dts.getD ["companies", "filings"]) k d).1).filter
    (fun r => r.type == "filing")
  rw [hperm.length_eq]
  exact hcand env cache q (dts.getD ["companies", "filings"]) k d

end SecEdgar
